import Mathlib

/-!
# Flash Notes — verification of the data layer and backup/restore flow

Shallow embedding of the Flash Notes browser extension's data layer
(`js/data/database.js`), tag service (`js/services/tagService.js`) and the
backup/restore orchestration in `js/app.js` / `js/ui/accountUI.js`.

The persisted document is a single JSON blob
`{notes, tags, tagColors, lastId, lastBackupTime}` read-modify-written as a
whole by every operation.  Each stateful JS method is embedded as a pure
function from the stored document (and the outcomes of its external
collaborators: authentication, the Drive upload/download oracle, the clock)
to its return value and the new stored document.  JS objects used as string
maps (`tagColors`) are embedded as association lists with unique keys;
JS truthiness of strings ("" is falsy) is modelled explicitly where the
source branches on it.
-/

namespace FlashNotes

/-- A note as stored in the document (`createNote` in database.js builds
exactly these fields). -/
structure Note where
  id        : Nat
  title     : String
  content   : String
  tags      : List String
  createdAt : String
  updatedAt : String
  deriving Repr, DecidableEq

/-- The single persisted root object (`notepadData` in database.js). -/
structure Doc where
  notes          : List Note
  tags           : List String
  tagColors      : List (String × String)
  lastId         : Nat
  lastBackupTime : Option String
  deriving Repr, DecidableEq

/-- JS-object lookup `m[k]` on the tagColors map. -/
def objGet (m : List (String × String)) (k : String) : Option String :=
  (m.find? (fun p => p.1 = k)).map (fun p => p.2)

/-- JS-object assignment `m[k] = v`: overwrite the existing binding, else
append a new one (JS object keys are unique, so the binding for `k` is
unique in every map the program builds). -/
def objSet : List (String × String) → String → String → List (String × String)
  | [], k, v => [(k, v)]
  | p :: m, k, v => if p.1 = k then (k, v) :: m else p :: objSet m k v

/-- JS `delete m[k]`. -/
def objDelete (m : List (String × String)) (k : String) : List (String × String) :=
  m.filter (fun p => p.1 ≠ k)

/-- JS truthiness of an optional string: `null`/`undefined` and `""` are
falsy. -/
def jsTruthy : Option String → Bool
  | none => false
  | some s => s ≠ ""

/-- `getNoteById` (database.js): first note with the given id, else absent. -/
def getNoteById (doc : Doc) (id : Nat) : Option Note :=
  doc.notes.find? (fun note => note.id = id)

/-- `createNote` (database.js): assigns `id = lastId + 1`, stamps both
timestamps with `now`, appends the note and raises `lastId`.  Returns the
new note together with the persisted document. -/
def createNote (doc : Doc) (now : String) (title content : String)
    (tags : List String) : Note × Doc :=
  let newNote : Note :=
    { id := doc.lastId + 1, title := title, content := content,
      tags := tags, createdAt := now, updatedAt := now }
  (newNote, { doc with notes := doc.notes ++ [newNote], lastId := doc.lastId + 1 })

/-- The `updates` argument of `updateNote`: a JS object holding any subset
of a note's fields (object spread `{...note, ...updates}` overrides exactly
the fields present in `updates`). -/
structure NoteUpdates where
  id        : Option Nat    := none
  title     : Option String := none
  content   : Option String := none
  tags      : Option (List String) := none
  createdAt : Option String := none
  updatedAt : Option String := none
  deriving Repr, DecidableEq

/-- `{...note, ...updates, updatedAt: now}` — fields present in `updates`
win over the note's, and `updatedAt` is always stamped with `now`. -/
def applyUpdates (note : Note) (u : NoteUpdates) (now : String) : Note :=
  { id        := u.id.getD note.id,
    title     := u.title.getD note.title,
    content   := u.content.getD note.content,
    tags      := u.tags.getD note.tags,
    createdAt := u.createdAt.getD note.createdAt,
    updatedAt := now }

/-- Replace the first note with the given id (JS `findIndex` + index
assignment); `none` when no note matches. -/
def replaceFirst (id : Nat) (f : Note → Note) :
    List Note → Option (Note × List Note)
  | [] => none
  | n :: ns =>
    if n.id = id then some (f n, f n :: ns)
    else (replaceFirst id f ns).map (fun r => (r.1, n :: r.2))

/-- `updateNote` (database.js): find the first note with the id, merge the
updates over it, stamp `updatedAt`, persist.  `(none, doc)` when the id is
absent — a no-op, not an error. -/
def updateNote (doc : Doc) (now : String) (id : Nat) (u : NoteUpdates) :
    Option Note × Doc :=
  match replaceFirst id (fun n => applyUpdates n u now) doc.notes with
  | none => (none, doc)
  | some (m, ns) => (some m, { doc with notes := ns })

/-- `TagService.addTagToNote` (tagService.js): look the note up; if it is
absent or already carries the tag, return it as-is without writing;
otherwise append the tag via `updateNote`. -/
def addTagToNote (doc : Doc) (now : String) (noteId : Nat) (tagName : String) :
    Option Note × Doc :=
  match getNoteById doc noteId with
  | none => (none, doc)
  | some note =>
    if note.tags.contains tagName then (some note, doc)
    else updateNote doc now noteId { tags := some (note.tags ++ [tagName]) }

/-- `deleteNote` (database.js): remove the first note with the id; `false`
when absent. -/
def deleteNote (doc : Doc) (id : Nat) : Bool × Doc :=
  if (doc.notes.find? (fun n => n.id = id)).isSome then
    (true, { doc with notes := doc.notes.eraseP (fun n => n.id = id) })
  else
    (false, doc)

/-- `addTag` (database.js): falsy (empty) name is a no-op returning absent;
an existing name only has its color overwritten; a new name is appended to
`tags` and given the color. -/
def addTag (doc : Doc) (tagName : String) (color : String) :
    Option String × Doc :=
  if tagName = "" then (none, doc)
  else if doc.tags.contains tagName then
    (some tagName, { doc with tagColors := objSet doc.tagColors tagName color })
  else
    (some tagName,
      { doc with tags := doc.tags ++ [tagName],
                 tagColors := objSet doc.tagColors tagName color })

/-- `updateTagColor` (database.js): set the color only when the tag is
registered. -/
def updateTagColor (doc : Doc) (tagName color : String) : Bool × Doc :=
  if doc.tags.contains tagName then
    (true, { doc with tagColors := objSet doc.tagColors tagName color })
  else
    (false, doc)

/-- `removeTag` (database.js): `false` when the tag is not registered;
otherwise splice the first occurrence out of `tags`, splice the first
occurrence out of every note's tag list, and `delete` the color entry —
the source guards the delete with JS truthiness of the stored color, so an
entry whose value is `""` is left in place.  One persisted write. -/
def removeTag (doc : Doc) (tagName : String) : Bool × Doc :=
  if doc.tags.contains tagName then
    (true,
      { doc with
          tags := doc.tags.erase tagName,
          notes := doc.notes.map (fun n => { n with tags := n.tags.erase tagName }),
          tagColors :=
            if jsTruthy (objGet doc.tagColors tagName) then
              objDelete doc.tagColors tagName
            else doc.tagColors })
  else
    (false, doc)

/-- JS `String.prototype.toLowerCase`, restricted to the ASCII mapping of
Lean's `Char.toLower` (the repository's data is ASCII). -/
def jsToLower (s : String) : String :=
  String.mk (s.data.map Char.toLower)

/-- Substring test over character lists (JS `String.prototype.includes`):
the needle is a prefix of some suffix of the haystack. -/
def infixCheck (needle : List Char) : List Char → Bool
  | [] => needle.isEmpty
  | c :: hay => needle.isPrefixOf (c :: hay) || infixCheck needle hay

/-- `a.toLowerCase().includes(b.toLowerCase())`: case-insensitive substring
test. -/
def containsCI (hay needle : String) : Bool :=
  infixCheck (jsToLower needle).toList (jsToLower hay).toList

/-- The match predicate inside `searchNotes`: title OR content OR any tag
name contains the query case-insensitively. -/
def noteMatches (query : String) (note : Note) : Bool :=
  containsCI note.title query || containsCI note.content query ||
    note.tags.any (fun tag => containsCI tag query)

/-- `searchNotes` (database.js): a falsy (empty) query returns all notes;
otherwise filter by `noteMatches`. -/
def searchNotes (doc : Doc) (query : String) : List Note :=
  if query = "" then doc.notes
  else doc.notes.filter (noteMatches query)

/-- The JSON payload stored on Drive (`driveService.backupData` writes
`{notes, tags, tagColors, lastId, backupDate}`; legacy payloads may lack
`lastId`).  Each field is optional: the restore code tests them for JS
truthiness. -/
structure BackupPayload where
  notes     : Option (List Note) := none
  tags      : Option (List String) := none
  tagColors : Option (List (String × String)) := none
  lastId    : Option Nat := none
  deriving Repr, DecidableEq

/-- The payload `driveService.backupData(notes, tags, tagColors)` uploads:
`lastId` is recomputed as `Math.max(0, ...notes.map(n => n.id))`. -/
def drivePayloadOf (notes : List Note) (tags : List String)
    (tagColors : List (String × String)) : BackupPayload :=
  { notes := some notes, tags := some tags, tagColors := some tagColors,
    lastId := some (notes.foldl (fun m n => max m n.id) 0) }

/-- `NoteDatabase.backupToDrive` (database.js): fails (and leaves the
stored document alone) when unauthenticated, when no document is stored,
or when the Drive upload fails or throws (`upload = none` models a thrown
exception, caught and absorbed); on upload success it stamps
`lastBackupTime` with `now` and persists. -/
def backupToDrive (authed : Bool) (upload : Option Bool) (now : String)
    (st : Option Doc) : Bool × Option Doc :=
  if !authed then (false, st)
  else
    match st with
    | none => (false, none)
    | some d =>
      match upload with
      | some true => (true, some { d with lastBackupTime := some now })
      | _ => (false, some d)

/-- `NoteDatabase.restoreFromDrive` (database.js): fails when
unauthenticated or when no payload with a `notes` field is downloaded;
otherwise it replaces the whole stored document with the remote fields
(`tags`/`tagColors` default to empty, `lastId` to `0` when absent) and
stamps `lastBackupTime` with `now`. -/
def restoreFromDrive (authed : Bool) (payload : Option BackupPayload)
    (now : String) (st : Option Doc) : Bool × Option Doc :=
  if !authed then (false, st)
  else
    match payload with
    | none => (false, st)
    | some p =>
      match p.notes with
      | none => (false, st)
      | some ns =>
        (true, some
          { notes := ns,
            tags := p.tags.getD [],
            tagColors := p.tagColors.getD [],
            lastId := p.lastId.getD 0,
            lastBackupTime := some now })

/-- The document `AccountUI.restoreFromDrive` (accountUI.js) persists after
a user-initiated restore: remote notes/tags/tagColors wholesale, and
`lastId = Math.max(currentData.lastId, ...backupData.notes.map(n => n.id))`.
(The surrounding variant still carries the legacy `syncEnabled` /
`lastSyncTime` bookkeeping; the merged object sets `lastSyncTime` to now
and no `lastBackupTime`, modelled here by leaving `lastBackupTime` empty.) -/
def accountRestoreMerge (current : Doc) (notes : List Note)
    (tags : Option (List String)) (tagColors : Option (List (String × String))) :
    Doc :=
  { notes := notes,
    tags := tags.getD [],
    tagColors := tagColors.getD [],
    lastId := notes.foldl (fun m n => max m n.id) current.lastId,
    lastBackupTime := none }

/-- `data && data.notes && data.notes.length > 0` in `checkForBackup`
(app.js). -/
def hasLocalNotes : Option Doc → Bool
  | none => false
  | some d => !d.notes.isEmpty

/-- `checkForBackup` (app.js): the automatic restore-on-startup path.
Returns whether a backup was restored, together with the stored document
afterwards.  The guard skips the restore only when local notes exist AND
`data.lastBackupTime` is truthy; when no remote backup exists, a default
welcome note is created for an empty store
(`initializeFirstTimeContent`). -/
def checkForBackup (driveInit : Bool) (backupExists : Bool) (authed : Bool)
    (payload : Option BackupPayload) (now : String) (st : Option Doc) :
    Bool × Option Doc :=
  if !driveInit then (false, st)
  else if hasLocalNotes st &&
      jsTruthy (st.bind (fun d => d.lastBackupTime)) then
    (false, st)
  else if backupExists then
    restoreFromDrive authed payload now st
  else
    match st with
    | none => (false, none)
    | some d =>
      if d.notes.isEmpty then
        (false, some (createNote d now "Welcome to Flash Notes"
          "Start taking notes with Flash Notes! Your notes are saved automatically and backed up to Google Drive."
          []).2)
      else (false, some d)

/-- The condition `checkDailyBackup` (app.js) uses to decide that a backup
is due: no `lastBackupTime` stored, or strictly more than 24 hours
(in milliseconds) elapsed since it.  Timestamps are epoch milliseconds. -/
def dailyBackupDue : Option Int → Int → Bool
  | none, _ => true
  | some last, now => now - last > 24 * 60 * 60 * 1000

/-! ## Helper lemmas about the embedded map and list operations -/

theorem objGet_objSet_self (m : List (String × String)) (k v : String) :
    objGet (objSet m k v) k = some v := by
  induction m with
  | nil => simp [objGet, objSet]
  | cons p m ih =>
    by_cases hp : p.1 = k
    · simp [objGet, objSet, hp]
    · simpa [objGet, objSet, hp, List.find?_cons, hp] using ih

theorem objGet_objDelete_self (m : List (String × String)) (k : String) :
    objGet (objDelete m k) k = none := by
  induction m with
  | nil => simp [objGet, objDelete]
  | cons p m ih =>
    by_cases hp : p.1 = k
    · rw [show objDelete (p :: m) k = objDelete m k by simp [objDelete, hp]]
      exact ih
    · rw [show objDelete (p :: m) k = p :: objDelete m k by simp [objDelete, hp]]
      simpa [objGet, List.find?_cons, hp] using ih

theorem infixCheck_iff (needle hay : List Char) :
    infixCheck needle hay = true ↔ needle <:+: hay := by
  induction hay with
  | nil =>
    simp [infixCheck, List.infix_nil, List.isEmpty_iff]
  | cons c hay ih =>
    simp [infixCheck, List.infix_cons_iff, List.isPrefixOf_iff_prefix, ih]

theorem addTag_mem (doc : Doc) (name color : String) (hname : name ≠ "")
    (hmem : name ∈ doc.tags) :
    addTag doc name color =
      (some name, { doc with tagColors := objSet doc.tagColors name color }) := by
  unfold addTag
  rw [if_neg hname, if_pos (List.elem_eq_true_of_mem hmem)]

theorem addTag_not_mem (doc : Doc) (name color : String) (hname : name ≠ "")
    (hmem : name ∉ doc.tags) :
    addTag doc name color =
      (some name,
        { doc with
            tags := doc.tags ++ [name],
            tagColors := objSet doc.tagColors name color }) := by
  have hc : ¬(doc.tags.contains name = true) := by simpa using hmem
  unfold addTag
  rw [if_neg hname, if_neg hc]

theorem replaceFirst_eq_none_of_not_mem (id : Nat) (f : Note → Note)
    (ns : List Note) (h : ∀ n ∈ ns, n.id ≠ id) :
    replaceFirst id f ns = none := by
  induction ns with
  | nil => rfl
  | cons n ns ih =>
    have hn : n.id ≠ id := h n (List.mem_cons_self n ns)
    simp only [replaceFirst, hn, if_false]
    rw [ih (fun m hm => h m (List.mem_cons_of_mem n hm))]
    rfl

theorem replaceFirst_append (id : Nat) (f : Note → Note) (pre : List Note)
    (n : Note) (post : List Note) (hpre : ∀ p ∈ pre, p.id ≠ id)
    (hn : n.id = id) :
    replaceFirst id f (pre ++ n :: post) = some (f n, pre ++ f n :: post) := by
  induction pre with
  | nil => simp [replaceFirst, hn]
  | cons p pre ih =>
    have hp : p.id ≠ id := hpre p (List.mem_cons_self p pre)
    simp only [List.cons_append, replaceFirst, hp, if_false, List.append_eq]
    rw [ih (fun q hq => hpre q (List.mem_cons_of_mem p hq))]
    rfl

theorem foldl_max_le_iff (ns : List Note) (a b : Nat) :
    ns.foldl (fun m n => max m n.id) a ≤ b ↔ a ≤ b ∧ ∀ n ∈ ns, n.id ≤ b := by
  induction ns generalizing a with
  | nil => simp
  | cons n ns ih =>
    simp only [List.foldl_cons, ih, max_le_iff, List.mem_cons]
    constructor
    · rintro ⟨⟨ha, hn⟩, hall⟩
      exact ⟨ha, fun m hm => hm.elim (fun h => h ▸ hn) (hall m)⟩
    · rintro ⟨ha, hall⟩
      exact ⟨⟨ha, hall n (Or.inl rfl)⟩, fun m hm => hall m (Or.inr hm)⟩

theorem le_foldl_max (ns : List Note) (a : Nat) :
    a ≤ ns.foldl (fun m n => max m n.id) a := by
  by_contra h
  have := (foldl_max_le_iff ns a (ns.foldl (fun m n => max m n.id) a)).mp le_rfl
  exact h this.1

theorem mem_le_foldl_max (ns : List Note) (a : Nat) (n : Note) (hn : n ∈ ns) :
    n.id ≤ ns.foldl (fun m n => max m n.id) a := by
  have := (foldl_max_le_iff ns a (ns.foldl (fun m n => max m n.id) a)).mp le_rfl
  exact this.2 n hn

/-! ## Concrete fixtures used by witnesses and counterexamples -/

/-- A small note used in witness documents. -/
def noteMilk : Note :=
  { id := 1, title := "Groceries", content := "milk, eggs", tags := ["home"],
    createdAt := "2024-01-01T00:00:00.000Z", updatedAt := "2024-01-01T00:00:00.000Z" }

/-- A second note, carrying a tag. -/
def noteWork : Note :=
  { id := 2, title := "Standup", content := "notes", tags := ["work"],
    createdAt := "2024-01-02T00:00:00.000Z", updatedAt := "2024-01-02T00:00:00.000Z" }

/-- A two-note document with one registered tag. -/
def docTwo : Doc :=
  { notes := [noteMilk, noteWork], tags := ["work"],
    tagColors := [("work", "#abcabc")], lastId := 2,
    lastBackupTime := some "2024-01-03T00:00:00.000Z" }

/-! ## C6 — daily-backup due boundary -/

/-- C6: a backup is due iff `lastBackupTime` is absent or strictly more
than 24 hours (in milliseconds) before `now`; exactly 24 hours ago is not
due, 24 hours and 1 ms ago is due, and an absent `lastBackupTime` is
always due. -/
theorem C6_backup_due_boundary :
    (∀ now : Int, dailyBackupDue none now = true) ∧
    (∀ now : Int, dailyBackupDue (some (now - 24 * 60 * 60 * 1000)) now = false) ∧
    (∀ now : Int, dailyBackupDue (some (now - 24 * 60 * 60 * 1000 - 1)) now = true) ∧
    (∀ (last : Option Int) (now : Int),
      dailyBackupDue last now = true ↔
        last = none ∨ ∃ t, last = some t ∧ now - t > 24 * 60 * 60 * 1000) := by
  refine ⟨fun now => rfl, fun now => ?_, fun now => ?_, fun last now => ?_⟩
  · simp [dailyBackupDue]
  · simp only [dailyBackupDue, decide_eq_true_eq]
    omega
  · cases last with
    | none => simp [dailyBackupDue]
    | some t => simp [dailyBackupDue]

/-! ## C10 — `addTagToNote` is a guarded no-op -/

/-- C10: when the note already carries the tag, `TagService.addTagToNote`
returns the note unchanged and performs no write (the stored document is
untouched, so in particular `updatedAt` is not refreshed); when the note id
does not exist it returns absent and the document is unchanged. -/
theorem C10_addTagToNote_guard (doc : Doc) (now : String) (id : Nat)
    (t : String) :
    (getNoteById doc id = none → addTagToNote doc now id t = (none, doc)) ∧
    (∀ n, getNoteById doc id = some n → t ∈ n.tags →
      addTagToNote doc now id t = (some n, doc)) := by
  constructor
  · intro h
    simp [addTagToNote, h]
  · intro n h ht
    have hc : n.tags.contains t = true := List.elem_eq_true_of_mem ht
    simp only [addTagToNote, h, hc, if_true]

/-- Witness for C10 on the concrete two-note document: note 2 already has
tag "work", so the call is a no-op; id 9 does not exist. -/
theorem C10_addTagToNote_guard_witness :
    addTagToNote docTwo "2024-03-01T00:00:00.000Z" 2 "work" = (some noteWork, docTwo) ∧
    addTagToNote docTwo "2024-03-01T00:00:00.000Z" 9 "work" = (none, docTwo) := by
  constructor
  · exact (C10_addTagToNote_guard docTwo "2024-03-01T00:00:00.000Z" 2 "work").2
      noteWork (by decide) (by decide)
  · exact (C10_addTagToNote_guard docTwo "2024-03-01T00:00:00.000Z" 9 "work").1
      (by decide)

/-! ## C9 — `backupToDrive` failure frame and success effect -/

/-- C9: `NoteDatabase.backupToDrive` returns `true` exactly when the user
is authenticated, a document is stored, and the Drive upload succeeds; on
every failure the stored document is unchanged; on success (and only then)
`lastBackupTime` is stamped with the current time and that is the only
change. -/
theorem C9_backupToDrive_frame (authed : Bool) (upload : Option Bool)
    (now : String) (st : Option Doc) :
    ((backupToDrive authed upload now st).1 = true ↔
      authed = true ∧ upload = some true ∧ st.isSome = true) ∧
    ((backupToDrive authed upload now st).1 = false →
      (backupToDrive authed upload now st).2 = st) ∧
    (∀ d, st = some d → authed = true → upload = some true →
      backupToDrive authed upload now st =
        (true, some { d with lastBackupTime := some now })) := by
  refine ⟨?_, ?_, ?_⟩
  · cases authed <;> cases st <;> rcases upload with _ | _ | _ <;>
      simp [backupToDrive]
  · cases authed <;> cases st <;> rcases upload with _ | _ | _ <;>
      simp [backupToDrive]
  · rintro d rfl rfl rfl
    simp [backupToDrive]

/-- Witness for C9: concrete success run (stamps `lastBackupTime`) obtained
by applying the theorem at the two-note document. -/
theorem C9_backupToDrive_frame_witness :
    backupToDrive true (some true) "2024-03-01T00:00:00.000Z" (some docTwo) =
      (true, some { docTwo with lastBackupTime := some "2024-03-01T00:00:00.000Z" }) := by
  exact (C9_backupToDrive_frame true (some true) "2024-03-01T00:00:00.000Z"
    (some docTwo)).2.2 docTwo rfl rfl rfl

/-! ## C8 — search correctness -/

/-- C8: `searchNotes` with an empty query returns all notes unfiltered;
with a non-empty query it returns exactly the notes whose title, content,
or some tag contains the query as a case-insensitive substring, and the
result is a sublist of `notes` (the document's existing order). -/
theorem C8_searchNotes_spec (doc : Doc) (q : String) :
    searchNotes doc "" = doc.notes ∧
    (q ≠ "" → ∀ n : Note, n ∈ searchNotes doc q ↔
      n ∈ doc.notes ∧
        ((jsToLower q).toList <:+: (jsToLower n.title).toList ∨
         (jsToLower q).toList <:+: (jsToLower n.content).toList ∨
         ∃ t ∈ n.tags, (jsToLower q).toList <:+: (jsToLower t).toList)) ∧
    (searchNotes doc q).Sublist doc.notes := by
  refine ⟨by simp [searchNotes], ?_, ?_⟩
  · intro hq n
    simp [searchNotes, hq, List.mem_filter, noteMatches, containsCI,
      infixCheck_iff, List.any_eq_true, or_assoc]
  · by_cases hq : q = ""
    · simp [searchNotes, hq]
    · simp only [searchNotes, hq, if_false]
      exact List.filter_sublist _

/-- Witness for C8: "EgG" matches note 1 ("milk, eggs") case-insensitively
in the two-note document, and the empty query returns everything. -/
theorem C8_searchNotes_spec_witness :
    noteMilk ∈ searchNotes docTwo "EgG" ∧ searchNotes docTwo "" = docTwo.notes := by
  refine ⟨?_, (C8_searchNotes_spec docTwo "EgG").1⟩
  exact ((C8_searchNotes_spec docTwo "EgG").2.1 (by decide) noteMilk).mpr
    ⟨by decide, Or.inr (Or.inl ((infixCheck_iff _ _).mp (by decide)))⟩

/-! ## C7 — `addTag` is an idempotent upsert -/

/-- C7: adding a tag twice (first with `colorA`, then with `colorB`) leaves
exactly one registry entry for the name, the second call does not change
the length of `tags`, and the stored color is `colorB`; an empty (falsy)
name is a no-op returning absent.  The hypothesis `count ≤ 1` is the
document invariant that the tag registry holds no duplicates. -/
theorem C7_addTag_upsert (doc : Doc) (name colorA colorB : String)
    (hname : name ≠ "") (hcount : doc.tags.count name ≤ 1) :
    (addTag doc name colorA).1 = some name ∧
    (addTag (addTag doc name colorA).2 name colorB).2.tags.count name = 1 ∧
    (addTag (addTag doc name colorA).2 name colorB).2.tags.length =
      (addTag doc name colorA).2.tags.length ∧
    objGet (addTag (addTag doc name colorA).2 name colorB).2.tagColors name =
      some colorB ∧
    (∀ c, addTag doc "" c = (none, doc)) := by
  have hempty : ∀ c, addTag doc "" c = (none, doc) := fun c => by simp [addTag]
  by_cases hmem : name ∈ doc.tags
  · rw [addTag_mem doc name colorA hname hmem]
    dsimp only
    rw [addTag_mem { doc with tagColors := objSet doc.tagColors name colorA }
      name colorB hname hmem]
    dsimp only
    exact ⟨rfl, le_antisymm hcount (List.count_pos_iff.mpr hmem), rfl,
      objGet_objSet_self _ _ _, hempty⟩
  · rw [addTag_not_mem doc name colorA hname hmem]
    dsimp only
    have hmem2 : name ∈
        ({ doc with
            tags := doc.tags ++ [name],
            tagColors := objSet doc.tagColors name colorA } : Doc).tags := by
      simp
    rw [addTag_mem _ name colorB hname hmem2]
    dsimp only
    refine ⟨rfl, ?_, rfl, objGet_objSet_self _ _ _, hempty⟩
    simp [List.count_append, List.count_eq_zero.mpr hmem]

/-- Witness for C7 on the two-note document: upserting the registered tag
"work" twice keeps one entry with the second color. -/
theorem C7_addTag_upsert_witness :
    (addTag (addTag docTwo "work" "#111111").2 "work" "#222222").2.tags.count "work" = 1 ∧
    objGet (addTag (addTag docTwo "work" "#111111").2 "work" "#222222").2.tagColors "work" =
      some "#222222" := by
  have h := C7_addTag_upsert docTwo "work" "#111111" "#222222" (by decide) (by decide)
  exact ⟨h.2.1, h.2.2.2.1⟩

/-! ## C4 — tag removal cascade -/

/-- A note carrying the tag "x" twice: note tag lists are plain JS arrays,
nothing in the Store deduplicates them, and restored backup payloads are
adopted verbatim. -/
def noteDupTag : Note :=
  { id := 1, title := "", content := "", tags := ["x", "x"],
    createdAt := "2024-01-01T00:00:00.000Z",
    updatedAt := "2024-01-01T00:00:00.000Z" }

/-- A document registering tag "x" whose single note lists "x" twice. -/
def docDupTag : Doc :=
  { notes := [noteDupTag], tags := ["x"], tagColors := [("x", "#111111")],
    lastId := 1, lastBackupTime := none }

/-- C4 counterexample: `removeTag` splices out only the FIRST occurrence of
the tag from each note's tag list (`indexOf`/`splice`), so on a note that
lists the tag twice the tag survives the removal, refuting "removes t from
the tags list of every note". -/
theorem C4_removeTag_counterexample :
    (removeTag docDupTag "x").1 = true ∧
    ∃ n ∈ (removeTag docDupTag "x").2.notes, "x" ∈ n.tags := by
  decide

/-- C4 (amended): `removeTag` on a document not containing the tag returns
false and changes nothing.  On a document containing it, it returns true
and removes the first occurrence of the tag from `tags` and from each
note's tag list and deletes the (truthy) color entry in the same persisted
write; hence when the registry and each note list the name at most once —
the shape every Store-built document has — and the stored color entry is
not the falsy `""`, the tag is gone from the registry, from every note,
and from `tagColors`. -/
theorem C4_removeTag_cascade (doc : Doc) (t : String) :
    (t ∉ doc.tags → removeTag doc t = (false, doc)) ∧
    (t ∈ doc.tags → doc.tags.count t ≤ 1 →
      (∀ n ∈ doc.notes, n.tags.count t ≤ 1) →
      objGet doc.tagColors t ≠ some "" →
      (removeTag doc t).1 = true ∧
      t ∉ (removeTag doc t).2.tags ∧
      (∀ n ∈ (removeTag doc t).2.notes, t ∉ n.tags) ∧
      objGet (removeTag doc t).2.tagColors t = none) := by
  constructor
  · intro hmem
    have hc : ¬(doc.tags.contains t = true) := by simpa using hmem
    unfold removeTag
    rw [if_neg hc]
  · intro hmem hcount hnotes hcolor
    have hc : doc.tags.contains t = true := List.elem_eq_true_of_mem hmem
    unfold removeTag
    rw [if_pos hc]
    dsimp only
    refine ⟨rfl, ?_, ?_, ?_⟩
    · have h1 : doc.tags.count t = 1 :=
        le_antisymm hcount (List.count_pos_iff.mpr hmem)
      have : (doc.tags.erase t).count t = 0 := by
        rw [List.count_erase_self, h1]
      exact List.count_eq_zero.mp this
    · intro n hn
      rw [List.mem_map] at hn
      obtain ⟨m, hm, rfl⟩ := hn
      have hm1 : m.tags.count t ≤ 1 := hnotes m hm
      have : (m.tags.erase t).count t = 0 := by
        rw [List.count_erase_self]
        omega
      exact List.count_eq_zero.mp this
    · rcases hg : objGet doc.tagColors t with _ | v
      · rw [show jsTruthy none = false from rfl]
        simp only [Bool.false_eq_true, if_false]
        exact hg
      · have hv : v ≠ "" := fun h => hcolor (h ▸ hg)
        rw [show jsTruthy (some v) = decide (v ≠ "") from rfl]
        rw [if_pos (by simpa using hv)]
        exact objGet_objDelete_self _ _

/-- Witness for C4 (amended) on the two-note document: removing the
registered tag "work" cascades fully. -/
theorem C4_removeTag_cascade_witness :
    (removeTag docTwo "work").1 = true ∧
    "work" ∉ (removeTag docTwo "work").2.tags ∧
    (∀ n ∈ (removeTag docTwo "work").2.notes, "work" ∉ n.tags) ∧
    objGet (removeTag docTwo "work").2.tagColors "work" = none := by
  exact (C4_removeTag_cascade docTwo "work").2 (by decide) (by decide)
    (by decide) (by decide)

/-! ## C5 — `updateNote` frame conditions -/

/-- C5 counterexample: `updateNote` spreads the caller's object over the
note, so a `partialFields` that names `createdAt` overwrites it — the
claim's "leaves its createdAt (and id) unchanged" fails for that input. -/
theorem C5_updateNote_counterexample :
    (updateNote docTwo "2024-03-01T00:00:00.000Z" 1
        { createdAt := some "1999-01-01T00:00:00.000Z" }).1.map Note.createdAt =
      some "1999-01-01T00:00:00.000Z" ∧
    (getNoteById docTwo 1).map Note.createdAt =
      some "2024-01-01T00:00:00.000Z" := by
  decide

/-- C5 (amended): `updateNote` on an absent id returns absent and leaves
the document unchanged; on the first note with the id it refreshes
`updatedAt` to now, leaves every field NOT named in `partialFields`
unchanged (in particular `createdAt` and `id` whenever `partialFields`
does not name them), and leaves every other note untouched. -/
theorem C5_updateNote_frame (doc : Doc) (now : String) (id : Nat)
    (u : NoteUpdates) :
    ((∀ n ∈ doc.notes, n.id ≠ id) → updateNote doc now id u = (none, doc)) ∧
    (∀ pre n post, doc.notes = pre ++ n :: post → (∀ p ∈ pre, p.id ≠ id) →
      n.id = id →
      ∃ m, updateNote doc now id u =
          (some m, { doc with notes := pre ++ m :: post }) ∧
        m.updatedAt = now ∧
        (u.id = none → m.id = n.id) ∧
        (u.title = none → m.title = n.title) ∧
        (u.content = none → m.content = n.content) ∧
        (u.tags = none → m.tags = n.tags) ∧
        (u.createdAt = none → m.createdAt = n.createdAt)) := by
  constructor
  · intro h
    unfold updateNote
    rw [replaceFirst_eq_none_of_not_mem id _ doc.notes h]
  · intro pre n post hsplit hpre hn
    refine ⟨applyUpdates n u now, ?_, rfl, ?_, ?_, ?_, ?_, ?_⟩
    · unfold updateNote
      rw [hsplit, replaceFirst_append id _ pre n post hpre hn]
    · intro h; simp [applyUpdates, h]
    · intro h; simp [applyUpdates, h]
    · intro h; simp [applyUpdates, h]
    · intro h; simp [applyUpdates, h]
    · intro h; simp [applyUpdates, h]

/-- Witness for C5 (amended): updating the title of note 2 refreshes
`updatedAt`, keeps `createdAt`, and leaves note 1 in place; updating a
missing id 9 is a no-op. -/
theorem C5_updateNote_frame_witness :
    updateNote docTwo "2024-03-01T00:00:00.000Z" 9 { title := some "New" } =
      (none, docTwo) ∧
    ∃ m, updateNote docTwo "2024-03-01T00:00:00.000Z" 2 { title := some "New" } =
        (some m, { docTwo with notes := [noteMilk] ++ m :: [] }) ∧
      m.updatedAt = "2024-03-01T00:00:00.000Z" ∧
      m.createdAt = noteWork.createdAt := by
  constructor
  · exact (C5_updateNote_frame docTwo "2024-03-01T00:00:00.000Z" 9
      { title := some "New" }).1 (by decide)
  · obtain ⟨m, h1, h2, _, _, _, _, h7⟩ :=
      (C5_updateNote_frame docTwo "2024-03-01T00:00:00.000Z" 2
        { title := some "New" }).2 [noteMilk] noteWork [] (by decide)
        (by decide) (by decide)
    exact ⟨m, h1, h2, h7 rfl⟩

/-! ## C3 — id uniqueness and the `lastId` high-water mark -/

/-- A remote payload whose `lastId` is 1 — exactly what the app's own
`backupData` produces for a store holding only note 1 (it recomputes
`lastId` as the max note id, forgetting any higher local high-water
mark). -/
def payloadLowId : BackupPayload :=
  { notes := some [noteMilk], tags := some [], tagColors := some [],
    lastId := some 1 }

/-- C3 counterexample: restoring that payload into a store whose `lastId`
is 2 sets `lastId` to 1 — `lastId` DECREASES across
`NoteDatabase.restoreFromDrive`, refuting "lastId never decreases across
any operation". -/
theorem C3_lastId_counterexample :
    docTwo.lastId = 2 ∧
    ((restoreFromDrive true (some payloadLowId) "2024-03-01T00:00:00.000Z"
        (some docTwo)).2.map Doc.lastId) = some 1 := by
  decide

/-- The id-related document invariant: note ids are pairwise distinct and
`lastId` dominates every note id. -/
def DocIdInv (doc : Doc) : Prop :=
  doc.notes.Pairwise (fun a b => a.id ≠ b.id) ∧
    ∀ n ∈ doc.notes, n.id ≤ doc.lastId

/-- C3 (amended): `createNote` preserves the invariant, assigns
`id = lastId + 1` (fresh among the existing ids), and strictly raises
`lastId`.  `NoteDatabase.restoreFromDrive`, however, adopts the remote
`lastId` verbatim (0 when absent) — which can decrease it (see the
counterexample) — so the restored document satisfies the invariant only
when the payload itself does, as payloads produced by the app's own
`backupData` do; `AccountUI.restoreFromDrive` instead takes the max of the
local `lastId` and the remote note ids, which never decreases `lastId`. -/
theorem C3_id_invariants (doc : Doc) (now title content : String)
    (tags : List String) (p : BackupPayload) (ns : List Note)
    (tg : Option (List String)) (tc : Option (List (String × String))) :
    (DocIdInv doc →
      DocIdInv (createNote doc now title content tags).2 ∧
      (createNote doc now title content tags).1.id = doc.lastId + 1 ∧
      doc.lastId ≤ (createNote doc now title content tags).2.lastId ∧
      (createNote doc now title content tags).1.id ∉ doc.notes.map Note.id) ∧
    (p.notes = some ns → ns.Pairwise (fun a b => a.id ≠ b.id) →
      (∀ n ∈ ns, n.id ≤ p.lastId.getD 0) →
      ∀ d, (restoreFromDrive true (some p) now (some doc)).2 = some d →
        DocIdInv d) ∧
    (doc.lastId ≤ (accountRestoreMerge doc ns tg tc).lastId ∧
      ∀ n ∈ ns, n.id ≤ (accountRestoreMerge doc ns tg tc).lastId) := by
  refine ⟨?_, ?_, ?_, ?_⟩
  · rintro ⟨hdist, hle⟩
    have hfresh : ∀ n ∈ doc.notes, n.id ≠ doc.lastId + 1 := by
      intro n hn
      have := hle n hn
      omega
    have hnotes : (createNote doc now title content tags).2.notes =
        doc.notes ++ [(createNote doc now title content tags).1] := rfl
    have hid : (createNote doc now title content tags).1.id =
        doc.lastId + 1 := rfl
    have hlast : (createNote doc now title content tags).2.lastId =
        doc.lastId + 1 := rfl
    refine ⟨⟨?_, ?_⟩, hid, by omega, ?_⟩
    · rw [hnotes, List.pairwise_append]
      refine ⟨hdist, List.pairwise_singleton _ _, ?_⟩
      intro a ha b hb
      rw [List.mem_singleton] at hb
      subst hb
      rw [hid]
      exact hfresh a ha
    · intro n hn
      rw [hnotes, List.mem_append] at hn
      rw [hlast]
      rcases hn with hn | hn
      · have := hle n hn
        omega
      · rw [List.mem_singleton] at hn
        subst hn
        rw [hid]
    · intro hmem
      rw [List.mem_map] at hmem
      obtain ⟨n, hn, hidn⟩ := hmem
      exact hfresh n hn (hidn.trans hid)
  · intro hp hdist hle d hd
    simp only [restoreFromDrive, hp, Bool.not_true, Bool.false_eq_true,
      if_false, Option.some.injEq] at hd
    subst hd
    exact ⟨hdist, hle⟩
  · exact le_foldl_max ns doc.lastId
  · exact fun n hn => mem_le_foldl_max ns doc.lastId n hn

/-- Witness for C3 (amended) on concrete inputs: creating a note in the
two-note document keeps ids distinct and bumps `lastId` to 3; restoring a
self-consistent payload yields a document satisfying the invariant. -/
theorem C3_id_invariants_witness :
    DocIdInv (createNote docTwo "2024-03-01T00:00:00.000Z" "t" "c" []).2 ∧
    (createNote docTwo "2024-03-01T00:00:00.000Z" "t" "c" []).1.id = 3 ∧
    ∀ d, (restoreFromDrive true (some payloadLowId) "2024-03-01T00:00:00.000Z"
        (some docTwo)).2 = some d → DocIdInv d := by
  have h := C3_id_invariants docTwo "2024-03-01T00:00:00.000Z" "t" "c" []
    payloadLowId [noteMilk] (some []) (some [])
  have hinv : DocIdInv docTwo := by
    constructor
    · decide
    · decide
  obtain ⟨h1, h2, _⟩ := h
  exact ⟨(h1 hinv).1, (h1 hinv).2.1, h2 (by decide) (by decide) (by decide)⟩

/-! ## C1 — restore is a wholesale replacement, not an id-keyed merge -/

/-- A remote copy of note 1 that is strictly OLDER than the local one and
carries a different title. -/
def noteRemoteOld : Note :=
  { id := 1, title := "B", content := "", tags := [],
    createdAt := "2023-12-01T00:00:00.000Z",
    updatedAt := "2023-12-31T00:00:00.000Z" }

/-- A remote backup payload holding only the stale copy of note 1. -/
def payloadRemote : BackupPayload :=
  { notes := some [noteRemoteOld], tags := some [], tagColors := some [],
    lastId := some 1 }

/-- C1 counterexample: the local document holds note 1 with title
"Groceries" and `updatedAt` 2024-01-01 — strictly newer than the remote
copy (title "B", 2023-12-31; ISO-8601 strings compare chronologically as
strings) — plus a local-only note 2.  The claimed merge keeps the newer
local note 1 and note 2; the code's restore instead adopts the stale
remote note 1 and drops note 2 entirely. -/
theorem C1_restore_counterexample :
    noteRemoteOld.updatedAt.data < noteMilk.updatedAt.data ∧
    ((restoreFromDrive true (some payloadRemote) "2024-03-01T00:00:00.000Z"
          (some docTwo)).2.bind (fun d => getNoteById d 1)).map Note.title =
      some "B" ∧
    ((restoreFromDrive true (some payloadRemote) "2024-03-01T00:00:00.000Z"
          (some docTwo)).2.bind (fun d => getNoteById d 2)) = none := by
  refine ⟨by decide, by decide, by decide⟩

/-- C1 (amended): restoring a remote backup performs no per-note
timestamp comparison at all — both restore paths adopt the remote notes
wholesale, discarding every local note (even ones strictly newer than, or
absent from, the remote document).  `NoteDatabase.restoreFromDrive` also
takes the remote `lastId` (0 when absent), while
`AccountUI.restoreFromDrive` sets `lastId` to the max of the local
`lastId` and the remote note ids. -/
theorem C1_restore_wholesale (loc : Doc) (p : BackupPayload) (ns : List Note)
    (now : String) (tg : Option (List String))
    (tc : Option (List (String × String))) (h : p.notes = some ns) :
    (restoreFromDrive true (some p) now (some loc)).1 = true ∧
    ((restoreFromDrive true (some p) now (some loc)).2.map Doc.notes) =
      some ns ∧
    ((restoreFromDrive true (some p) now (some loc)).2.map Doc.lastId) =
      some (p.lastId.getD 0) ∧
    (accountRestoreMerge loc ns tg tc).notes = ns ∧
    loc.lastId ≤ (accountRestoreMerge loc ns tg tc).lastId := by
  refine ⟨?_, ?_, ?_, rfl, le_foldl_max ns loc.lastId⟩ <;>
    simp [restoreFromDrive, h]

/-- Witness for C1 (amended): restoring the stale one-note payload over
the two-note document succeeds and the restored notes are exactly the
remote ones. -/
theorem C1_restore_wholesale_witness :
    (restoreFromDrive true (some payloadRemote) "2024-03-01T00:00:00.000Z"
        (some docTwo)).1 = true ∧
    ((restoreFromDrive true (some payloadRemote) "2024-03-01T00:00:00.000Z"
        (some docTwo)).2.map Doc.notes) = some [noteRemoteOld] := by
  have h := C1_restore_wholesale docTwo payloadRemote [noteRemoteOld]
    "2024-03-01T00:00:00.000Z" (some []) (some []) (by decide)
  exact ⟨h.1, h.2.1⟩

/-! ## C2 — the automatic first-run restore guard -/

/-- The two-note document with `lastBackupTime` unset (e.g. a store that
has never completed a backup). -/
def docNoBackupTime : Doc :=
  { docTwo with lastBackupTime := none }

/-- C2 counterexample: the guard in `checkForBackup` skips the automatic
restore only when local notes exist AND `lastBackupTime` is set.  With
local notes present but `lastBackupTime` null, the automatic startup path
restores the remote backup and overwrites the local document — local
note 2 is gone afterwards — refuting "never overwrites ... regardless of
whether lastBackupTime is set". -/
theorem C2_first_run_counterexample :
    hasLocalNotes (some docNoBackupTime) = true ∧
    (checkForBackup true true true (some payloadRemote)
        "2024-03-01T00:00:00.000Z" (some docNoBackupTime)).1 = true ∧
    ((checkForBackup true true true (some payloadRemote)
        "2024-03-01T00:00:00.000Z" (some docNoBackupTime)).2.bind
      (fun d => getNoteById d 2)) = none := by
  decide

/-- C2 (amended): the automatic restore-on-startup path never touches the
stored document when the local store has at least one note AND
`lastBackupTime` is set (truthy); with local notes but no recorded backup
time the automatic restore can run and overwrite (see the
counterexample). -/
theorem C2_first_run_guard (driveInit backupExists authed : Bool)
    (p : Option BackupPayload) (now : String) (st : Option Doc)
    (h1 : hasLocalNotes st = true)
    (h2 : jsTruthy (st.bind (fun d => d.lastBackupTime)) = true) :
    checkForBackup driveInit backupExists authed p now st = (false, st) := by
  cases driveInit
  · rfl
  · unfold checkForBackup
    rw [if_neg (by decide)]
    rw [if_pos (by rw [h1, h2]; rfl)]

/-- Witness for C2 (amended): the two-note document has notes and a
recorded `lastBackupTime`, so the automatic path is a no-op even though a
remote backup exists. -/
theorem C2_first_run_guard_witness :
    checkForBackup true true true (some payloadRemote)
      "2024-03-01T00:00:00.000Z" (some docTwo) = (false, some docTwo) := by
  exact C2_first_run_guard true true true (some payloadRemote)
    "2024-03-01T00:00:00.000Z" (some docTwo) (by decide) (by decide)

end FlashNotes
